import Mathlib

/-!
Verification of the stronghold monetized-scan pipeline against its
natural-language specification.  Every definition below is a shallow
embedding of a concrete function of the Go sources; theorems settle the
frozen claims C1..C10.
-/

set_option maxRecDepth 4096

namespace Stronghold
/-! ## Monetary unit (internal/usdc/usdc.go, unnamed/part_005)

`ChainDecimals` maps a chain tag to the USDC token decimals; lookups of an
unknown chain fall back to 6, exactly as `ToBigInt` / `FromBigInt` do. -/

namespace Usdc

/-- The `ChainDecimals` map of `unnamed/part_005` as an association list. -/
def chainDecimalsList : List (String × Nat) :=
  [("base", 6), ("base-sepolia", 6), ("solana", 6), ("solana-devnet", 6)]

/-- Chain-decimals lookup with the `decimals = 6` default applied by both
`ToBigInt` and `FromBigInt` when the chain is absent from the map. -/
def chainDecimals (chain : String) : Nat :=
  match (chainDecimalsList.lookup chain) with
  | some d => d
  | none => 6

/-- Two's-complement wrap of an unbounded integer into the `int64` range,
modelling Go's `big.Int.Int64` on the values the code produces. -/
def wrapInt64 (x : Int) : Int :=
  (x + 2 ^ 63) % 2 ^ 64 - 2 ^ 63

/-- `MicroUSDC.ToBigInt` (usdc.go lines 90-105): scale a MicroUSDC amount
to on-chain atomic units by `10^(decimals-6)`; `big.Int.Div` is Euclidean
division, which `Int.ediv` (`/` on `Int`) matches for the divisors used. -/
def toBigInt (m : Int) (chain : String) : Int :=
  let decimals := chainDecimals chain
  if decimals > 6 then m * (10 : Int) ^ (decimals - 6)
  else if decimals < 6 then m / (10 : Int) ^ (6 - decimals)
  else m

/-- `FromBigInt` (usdc.go lines 109-124): scale on-chain units back to
MicroUSDC and narrow the result to `int64`. -/
def fromBigInt (b : Int) (chain : String) : Int :=
  let decimals := chainDecimals chain
  let result :=
    if decimals > 6 then b / (10 : Int) ^ (decimals - 6)
    else if decimals < 6 then b * (10 : Int) ^ (6 - decimals)
    else b
  wrapInt64 result

end Usdc
/-! ## Settlement worker backoff (internal/settlement/worker.go) -/

namespace Settlement

/-- Durations in nanoseconds, as Go's `time.Duration`. -/
def nanosecond : Int := 1

def second : Int := 1000000000

def minute : Int := 60 * second

/-- The doubling loop inside `calculateBackoff`: `delay *= 2` per attempt,
clamped (with early exit) at `maxDelay`. -/
def backoffLoop (maxDelay : Int) : Nat → Int → Int
  | 0, delay => delay
  | n + 1, delay =>
    let d := delay * 2
    if d > maxDelay then maxDelay else backoffLoop maxDelay n d

/-- `Worker.calculateBackoff` (worker.go lines 200-214): exponential
backoff with base 5s, capped at 5 minutes. -/
def calculateBackoff (attempts : Nat) : Int :=
  backoffLoop (5 * minute) attempts (5 * second)

/-- A row returned by `GetPendingSettlements` as far as the retry pass
inspects it: its settlement-attempt count and `executed_at` time. -/
structure PendingPayment where
  id : Nat
  settlementAttempts : Nat
  executedAt : Int
  deriving Repr, DecidableEq

/-- The skip test of `retryFailedSettlements` (worker.go lines 151-157):
a payment is attempted in this pass iff `now - executed_at >= backoff`. -/
def retryDue (now : Int) (p : PendingPayment) : Bool :=
  decide (now - p.executedAt ≥ calculateBackoff p.settlementAttempts)

/-- The subset of a batch that `retryFailedSettlements` actually submits
to the facilitator; the rest are skipped (`continue`). -/
def retryAttempted (now : Int) (batch : List PendingPayment) :
    List PendingPayment :=
  batch.filter (retryDue now)

end Settlement
/-! ## Payment router (unnamed/part_002: PaymentRouter, X402Middleware) -/

namespace Middleware

/-- JSON values as far as the router's response bodies need them. -/
inductive Json where
  | str : String → Json
  | obj : List (String × Json) → Json
  | arr : List Json → Json
  deriving Repr

/-- Top-level field lookup on a JSON body. -/
def Json.field (j : Json) (k : String) : Option Json :=
  match j with
  | .obj fields => fields.lookup k
  | _ => none

/-- The body of the path-3 402 of `PaymentRouter.Route` (part_002 lines
62-65): an `error` and a `message`, nothing else. -/
def paymentRequiredBody : Json :=
  .obj [("error", .str "Payment required"),
    ("message",
      .str "Include an X-PAYMENT header (x402 crypto) or Authorization: Bearer sk_live_... (API key)")]

/-- The body of `X402Middleware.requirePaymentResponse` (part_002 lines
296-313): an `error` plus a single `payment_requirements` object for the
one configured network. -/
def requirePaymentBody (network wallet facilitatorURL amountStr : String) : Json :=
  .obj [("error", .str "Payment required"),
    ("payment_requirements", .obj
      [("scheme", .str "x402"), ("network", .str network),
        ("recipient", .str wallet), ("amount", .str amountStr),
        ("currency", .str "USDC"), ("facilitator_url", .str facilitatorURL),
        ("description", .str "Citadel security scan")])]

/-- What `PaymentRouter.Route`'s middleware does with a request. -/
inductive RouteResult where
  | delegateX402
  | apiKeyPayment
  | response (status : Nat) (body : Json)
  deriving Repr

/-- The token extraction of part_002 lines 52-55: strip a `Bearer `
prefix when present (header strings modelled as character lists, Go
indexing being byte-based on these ASCII prefixes). -/
def bearerToken (authHeader : List Char) : List Char :=
  if authHeader.length > 7 ∧ authHeader.take 7 = "Bearer ".toList
  then authHeader.drop 7 else authHeader

/-- The path-2 guard of part_002 lines 50-58: a non-empty Authorization
header of more than 7 bytes whose (Bearer-stripped) token starts with
`sk_live_`. -/
def isApiKeyAuth (authHeader : List Char) : Bool :=
  decide (authHeader ≠ [] ∧ authHeader.length > 7)
    && (let token := bearerToken authHeader
        decide (token.length > 8 ∧ token.take 8 = "sk_live_".toList))

/-- `PaymentRouter.Route` (part_002 lines 38-67): X-Payment present →
delegate to the atomic x402 middleware; `sk_live_` bearer → API-key
payment path; otherwise a 402 with `paymentRequiredBody`. -/
def routeStep (xPayment authHeader : List Char) : RouteResult :=
  if xPayment ≠ [] then .delegateX402
  else if isApiKeyAuth authHeader then .apiKeyPayment
  else .response 402 paymentRequiredBody

/-- The account fields `handleAPIKeyPayment` reads. -/
structure Account where
  id : Nat
  balance : Int
  stripeCustomerID : Option String
  deriving Repr, DecidableEq

/-- A usage-log row as `PaymentRouter.logUsage` writes it. -/
structure UsageLog where
  accountID : Nat
  costUSDC : Int
  status : String
  paymentMethod : String
  deriving Repr, DecidableEq

/-- Modelled from the spec: `db.DeductBalance` (its SQL lives outside the
sources given) is the atomic
`UPDATE accounts SET balance = balance - P WHERE id = a AND balance >= P`
of spec §4.8, reporting whether a row was updated. -/
def deductBalance (balance price : Int) : Bool × Int :=
  if balance ≥ price then (true, balance - price) else (false, balance)

/-- The 402 body of part_002 lines 94-97. -/
def insufficientCreditsBody : Json :=
  .obj [("error", .str "Insufficient credits"),
    ("message",
      .str "Your credit balance is insufficient. Purchase credits at /v1/billing/credits.")]

/-- Outcome of the API-key payment path: either the downstream handler
runs (`c.Next()`) or a response is returned without invoking it. -/
inductive APIKeyOutcome where
  | next
  | response (status : Nat) (body : Json)
  deriving Repr

def mkUsageLog (a : Account) (price : Int) (method : String) : UsageLog :=
  { accountID := a.id, costUSDC := price, status := "success",
    paymentMethod := method }

/-- `PaymentRouter.handleAPIKeyPayment` (part_002 lines 70-110) after a
successful authentication: attempt the atomic deduction; on success log
usage (`credits`) and continue; otherwise fall back to metered billing
when a Stripe customer exists, else 402.  Returns the outcome, the
account's new balance and the usage-log table. -/
def handleAPIKeyPayment (account : Account) (price : Int)
    (logs : List UsageLog) : APIKeyOutcome × Int × List UsageLog :=
  let r := deductBalance account.balance price
  if r.1 then
    (.next, r.2, logs ++ [mkUsageLog account price "credits"])
  else
    match account.stripeCustomerID with
    | none => (.response 402 insufficientCreditsBody, r.2, logs)
    | some cid =>
      if cid = "" then (.response 402 insufficientCreditsBody, r.2, logs)
      else (.next, r.2, logs ++ [mkUsageLog account price "metered"])

end Middleware
/-! ## Proxy scanner classification and MITM handler
(internal/proxy/scanner.go, unnamed/part_017: MITMHandler) -/

namespace Proxy

/-- `contains` (scanner.go lines 325-336): substring containment, scanning
every start position. -/
def goContains : List Char → List Char → Bool
  | s, sub =>
    sub.isPrefixOf s
      || (match s with
          | [] => false
          | _ :: t => goContains t sub)

/-- `ShouldScanContentType` (scanner.go lines 280-301). -/
def shouldScanContentType (ct : List Char) : Bool :=
  ["text/html", "text/plain", "text/markdown", "application/json",
    "application/xml", "text/xml", "application/javascript",
    "text/javascript", "text/css"].any
    (fun t => goContains ct t.toList)

/-- `IsBinaryContentType` (scanner.go lines 304-323). -/
def isBinaryContentType (ct : List Char) : Bool :=
  ["image/", "video/", "audio/", "application/octet-stream",
    "application/pdf", "application/zip", "application/gzip",
    "application/x-"].any
    (fun t => goContains ct t.toList)

/-- The scan result fields the MITM handler reads. -/
structure ScanResult where
  decision : String
  reason : String
  deriving Repr, DecidableEq

/-- The `Scanning` configuration fields the MITM handler reads. -/
structure ScanCfg where
  contentEnabled : Bool
  failOpen : Bool
  deriving Repr, DecidableEq

/-- The substituted result of `MITMHandler.scanContent` when the scanner
call errors and `FailOpen` is false (part_017 lines 805-808). -/
def scanFailedResult : ScanResult :=
  { decision := "BLOCK", reason := "Scan failed - blocking for safety" }

/-- `MITMHandler.scanContent` (part_017 lines 795-812).  The outcome of
the network call to the scanner is passed in (`none` = transport error):
on error, fail-open yields `nil` (no result, traffic flows) and
fail-closed yields a synthetic BLOCK result. -/
def scanContent (cfg : ScanCfg) (outcome : Option ScanResult) :
    Option ScanResult :=
  match outcome with
  | some r => some r
  | none => if cfg.failOpen then none else some scanFailedResult

/-- The response `MITMHandler.sendBlockResponse` writes, with its JSON
body as a field table. -/
structure BlockResponse where
  status : Nat
  bodyFields : List (String × String)
  headers : List (String × String)
  deriving Repr, DecidableEq

/-- `MITMHandler.sendBlockResponse` (part_017 lines 815-841): a 403 whose
JSON body carries `error`, `reason` and `url`, with headers
`Content-Type`, `X-Stronghold-Decision` and `X-Stronghold-Reason`. -/
def sendBlockResponse (result : ScanResult) (url : String) : BlockResponse :=
  { status := 403,
    bodyFields :=
      [("error", "Content blocked by Stronghold security scan"),
        ("reason", result.reason), ("url", url)],
    headers :=
      [("Content-Type", "application/json"),
        ("X-Stronghold-Decision", result.decision),
        ("X-Stronghold-Reason", result.reason)] }

/-- The request fields the `proxyHTTPS` loop inspects. -/
structure HTTPRequest where
  url : String
  hasBody : Bool
  contentLength : Int
  bodyLen : Nat
  contentType : List Char
  deriving Repr, DecidableEq

/-- The request-body scan gate of `proxyHTTPS` (part_017 lines 724-729):
the scanner is consulted iff the request has a body, a positive
Content-Length, content scanning is enabled and the body is non-empty
and under 1 MiB.  The request's Content-Type is never consulted. -/
def requestScannerCalled (cfg : ScanCfg) (req : HTTPRequest) : Bool :=
  req.hasBody && decide (req.contentLength > 0) && cfg.contentEnabled
    && decide (0 < req.bodyLen) && decide (req.bodyLen < 1048576)

/-- The response scan gate of `proxyHTTPS` (part_017 lines 763-768): the
scanner is consulted iff scanning is enabled, the body is non-empty and
under 1 MiB, the Content-Type is scannable and not binary. -/
def responseScannerCalled (cfg : ScanCfg) (respLen : Nat) (ct : List Char) :
    Bool :=
  cfg.contentEnabled && decide (0 < respLen) && decide (respLen < 1048576)
    && shouldScanContentType ct && !(isBinaryContentType ct)

/-- Fate of a client request in one iteration of the `proxyHTTPS` loop. -/
inductive RequestStep where
  | blocked (resp : BlockResponse)
  | forwarded
  deriving Repr, DecidableEq

/-- The request half of a `proxyHTTPS` iteration (part_017 lines 722-745):
scan the body when the gate admits it; on a BLOCK decision substitute the
block response and `continue` (the request is not written upstream);
otherwise forward the request to the server. -/
def processRequestPhase (cfg : ScanCfg) (req : HTTPRequest)
    (outcome : Option ScanResult) : RequestStep :=
  if requestScannerCalled cfg req then
    match scanContent cfg outcome with
    | some r =>
      if r.decision = "BLOCK" then .blocked (sendBlockResponse r req.url)
      else .forwarded
    | none => .forwarded
  else .forwarded

end Proxy
/-! ## x402 wallet: payment payloads and EIP-712 domains (unnamed/part_003) -/

namespace Wallet

/-- `X402Payload` (part_003 lines 23-33). -/
structure X402Payload where
  network : String
  scheme : String
  payer : String
  receiver : String
  tokenAddress : String
  amount : String
  timestamp : Int
  nonce : String
  signature : String
  deriving Repr, DecidableEq

/-- `getChainID` (part_003 lines 263-272): any network other than
`base-sepolia` — including every unrecognized one — maps to 8453. -/
def getChainID (network : String) : Nat :=
  match network with
  | "base" => 8453
  | "base-sepolia" => 84532
  | _ => 8453

/-- The EIP-712 domain of `buildPaymentTypedData` (part_003 lines 237-242). -/
structure TypedDataDomain where
  name : String
  version : String
  chainID : Nat
  verifyingContract : String
  deriving Repr, DecidableEq

/-- The typed data `buildPaymentTypedData` constructs (part_003 lines
219-251); the `Payment` message fields are inlined. -/
structure TypedData where
  primaryType : String
  domain : TypedDataDomain
  receiver : String
  tokenAddress : String
  amount : String
  timestamp : Int
  nonce : String
  deriving Repr, DecidableEq

/-- `buildPaymentTypedData` (part_003 lines 219-251). -/
def buildPaymentTypedData (chainID : Nat)
    (receiver tokenAddress amount : String) (timestamp : Int)
    (nonce : String) : TypedData :=
  { primaryType := "Payment",
    domain :=
      { name := "x402", version := "1", chainID := chainID,
        verifyingContract := receiver },
    receiver := receiver, tokenAddress := tokenAddress, amount := amount,
    timestamp := timestamp, nonce := nonce }

/-- The typed data `VerifyPaymentSignature` reconstructs and hashes
(part_003 lines 139-146): the domain's chain id comes from
`getChainID(payload.Network)`. -/
def verifyTypedData (p : X402Payload) : TypedData :=
  buildPaymentTypedData (getChainID p.network) p.receiver p.tokenAddress
    p.amount p.timestamp p.nonce

/-! ### `ParseX402Payment` (part_003 lines 184-214)

The header is modelled as a list of characters.  The loop splits at every
`;` that is not the first byte and not preceded by a backslash (byte
indexing and character indexing agree here: no UTF-8 continuation byte
equals `\`). -/

/-- The separator test of part_003 line 189:
`c == ';' && i > 0 && paymentHeader[i-1] != '\\'`. -/
def isSep (c : Char) (prev : Option Char) : Bool :=
  c == ';' &&
    (match prev with
     | none => false
     | some p => p != '\\')

/-- The split loop of `ParseX402Payment` (part_003 lines 186-196),
carrying the previous character and the current part (reversed). -/
def splitPaymentAux : List Char → Option Char → List Char → List (List Char)
  | [], _, current => [current.reverse]
  | c :: rest, prev, current =>
    if isSep c prev then current.reverse :: splitPaymentAux rest (some c) []
    else splitPaymentAux rest (some c) (c :: current)

def splitPayment (s : List Char) : List (List Char) :=
  splitPaymentAux s none []

/-- Value of one character in the RFC 4648 standard base64 alphabet, as
used by Go's `encoding/base64.StdEncoding`. -/
def b64Val (c : Char) : Option Nat :=
  if 'A' ≤ c ∧ c ≤ 'Z' then some (c.toNat - 65)
  else if 'a' ≤ c ∧ c ≤ 'z' then some (c.toNat - 97 + 26)
  else if '0' ≤ c ∧ c ≤ '9' then some (c.toNat - 48 + 52)
  else if c = '+' then some 62
  else if c = '/' then some 63
  else none

/-- Decode whole 4-character base64 groups; `=` padding is legal only in
the final group (one or two pads), as Go's strict group handling has it. -/
def b64DecodeGroups : List Char → Option (List Nat)
  | [] => some []
  | a :: b :: c :: d :: rest =>
    match b64Val a, b64Val b with
    | some va, some vb =>
      if c = '=' then
        if d = '=' ∧ rest = [] then some [va * 4 + vb / 16]
        else none
      else
        match b64Val c with
        | some vc =>
          if d = '=' then
            if rest = [] then some [va * 4 + vb / 16, vb % 16 * 16 + vc / 4]
            else none
          else
            match b64Val d with
            | some vd =>
              match b64DecodeGroups rest with
              | some bs =>
                some ((va * 4 + vb / 16) :: (vb % 16 * 16 + vc / 4) ::
                  (vc % 4 * 64 + vd) :: bs)
              | none => none
            | none => none
        | none => none
    | _, _ => none
  | _ => none

/-- Go's `base64.StdEncoding.DecodeString`: carriage returns and
newlines are skipped, any other byte outside the alphabet (or misplaced
padding) is a `CorruptInputError`. -/
def goBase64Decode (s : List Char) : Option (List Nat) :=
  b64DecodeGroups (s.filter (fun c => !(c == '\r' || c == '\n')))

/-- `ParseX402Payment` up to (not including) the `json.Unmarshal` stage:
split, demand exactly two parts with the first equal to `x402`, then
base64-decode the second (part_003 lines 186-206). -/
def parseX402Bytes (s : List Char) : Option (List Nat) :=
  match splitPayment s with
  | [p0, p1] => if p0 = "x402".toList then goBase64Decode p1 else none
  | _ => none

/-- `ParseX402Payment` (part_003 lines 184-214) with the final
`json.Unmarshal` stage abstracted as the parameter `jsonDec` (the claim
depends only on its error propagation, not on the JSON grammar). -/
def parseX402Payment (jsonDec : List Nat → Option X402Payload)
    (s : List Char) : Option X402Payload :=
  (parseX402Bytes s).bind jsonDec

/-- The spec's description of the split: break at the FIRST `;` only. -/
def splitFirst : List Char → List Char → List (List Char)
  | [], acc => [acc.reverse]
  | c :: rest, acc =>
    if c = ';' then [acc.reverse, rest] else splitFirst rest (c :: acc)

/-- The parse as the spec words it: split on the first `;`, reject a
non-`x402` scheme, base64-decode the remainder. -/
def parseX402BytesSpec (s : List Char) : Option (List Nat) :=
  match splitFirst s [] with
  | [p0, p1] => if p0 = "x402".toList then goBase64Decode p1 else none
  | _ => none

def parseX402PaymentSpec (jsonDec : List Nat → Option X402Payload)
    (s : List Char) : Option X402Payload :=
  (parseX402BytesSpec s).bind jsonDec

/-- Canonical form both parses reduce to: succeed only on
`x402;<decodable base64>`. -/
def canonicalParseBytes : List Char → Option (List Nat)
  | 'x' :: '4' :: '0' :: '2' :: ';' :: t => goBase64Decode t
  | _ => none

/-- A fixed default payload for witnessing the abstract JSON stage. -/
def jsonDecW : List Nat → Option X402Payload :=
  fun bs =>
    if bs = [123, 125] then some ⟨"base", "x402", "", "", "", "", 0, "", ""⟩
    else none

end Wallet
/-! ## Certificate cache (internal/proxy/certcache.go)

An interleaving model of `CertCache.GetCert` for a single host within one
eviction cycle (no `evict` pass runs).  Certificates are numbered by
generator invocation (fresh pointers → distinct numbers).  Each
lock-protected region of `GetCert` is one atomic step; `GenerateCert`
(called outside any lock, certcache.go line 62) is its own step.  The
hit-path `lastUsed` refresh only touches the timestamp, never the
certificate, and is omitted. -/

namespace CertCache

/-- Cache state for one host: the cached certificate, if any, and the
number of `GenerateCert` invocations so far. -/
structure CacheState where
  cached : Option Nat
  genCount : Nat
  deriving Repr, DecidableEq

/-- Control state of one goroutine inside `GetCert`. -/
inductive ThreadPC where
  | start
  | missed
  | generated (cert : Nat)
  | done (result : Nat)
  deriving Repr, DecidableEq

/-- One atomic step of a goroutine running `GetCert` (certcache.go lines
48-82): read-locked lookup (lines 50-59), `GenerateCert` (line 62), then
the write-locked double-checked insert (lines 68-79). -/
def threadStep (s : CacheState) : ThreadPC → CacheState × ThreadPC
  | .start =>
    match s.cached with
    | some c => (s, .done c)
    | none => (s, .missed)
  | .missed => ({ s with genCount := s.genCount + 1 }, .generated s.genCount)
  | .generated c =>
    match s.cached with
    | some existing => (s, .done existing)
    | none => ({ s with cached := some c }, .done c)
  | .done r => (s, .done r)

/-- Run a schedule: each entry names the goroutine that takes the next
atomic step (out-of-range entries are no-ops). -/
def runSchedule : List Nat → CacheState × List ThreadPC → CacheState × List ThreadPC
  | [], st => st
  | tid :: rest, (s, ths) =>
    match ths.get? tid with
    | none => runSchedule rest (s, ths)
    | some pc =>
      let r := threadStep s pc
      runSchedule rest (r.1, ths.set tid r.2)

/-- `n` goroutines all about to call `GetCert` on a cold cache. -/
def initConfig (n : Nat) : CacheState × List ThreadPC :=
  ({ cached := none, genCount := 0 }, List.replicate n .start)

/-- The invariant: every finished goroutine returned exactly the
certificate currently cached. -/
def inv (cfg : CacheState × List ThreadPC) : Prop :=
  ∀ i r, cfg.2.get? i = some (.done r) → cfg.1.cached = some r

end CertCache
/-! ## Supporting lemmas -/
namespace Usdc

lemma chainDecimals_supported (chain : String)
    (h : chain ∈ ["base", "base-sepolia", "solana", "solana-devnet"]) :
    chainDecimals chain = 6 := by
  fin_cases h <;> rfl

lemma wrapInt64_eq_self (x : Int) (h0 : -(2 ^ 63) ≤ x) (h1 : x < 2 ^ 63) :
    wrapInt64 x = x := by
  unfold wrapInt64
  have hlo : (0 : Int) ≤ x + 2 ^ 63 := by linarith
  have hhi : x + 2 ^ 63 < 2 ^ 64 := by norm_num at h1 ⊢; linarith
  rw [Int.emod_eq_of_lt hlo hhi]
  ring

end Usdc
namespace Settlement

lemma backoffLoop_eq_min (n : Nat) (d M : Int) (hd : 0 < d) (hM : d ≤ M) :
    backoffLoop M n d = min (d * 2 ^ n) M := by
  induction n generalizing d with
  | zero => simp [backoffLoop, min_eq_left hM]
  | succ k ih =>
    simp only [backoffLoop]
    by_cases h : d * 2 > M
    · have h2 : M < d * 2 ^ (k + 1) := by
        have h1 : d * 2 ≤ d * 2 ^ (k + 1) := by
          have : (2 : Int) ≤ 2 ^ (k + 1) := by
            calc (2 : Int) = 2 ^ 1 := by ring
            _ ≤ 2 ^ (k + 1) := by
              apply pow_le_pow_right₀ <;> omega
          nlinarith
        linarith
      simp [h, min_eq_right (le_of_lt h2)]
    · push_neg at h
      rw [if_neg (by omega), ih (d * 2) (by positivity) h]
      congr 1
      ring

/-- Closed form of the backoff: `min(5s * 2^attempts, 5min)`. -/
lemma calculateBackoff_eq (n : Nat) :
    calculateBackoff n = min (5 * second * 2 ^ n) (5 * minute) := by
  unfold calculateBackoff
  exact backoffLoop_eq_min n _ _ (by norm_num [second]) (by norm_num [second, minute])

end Settlement
namespace Wallet

lemma splitPaymentAux_ne_nil (s : List Char) (prev : Option Char)
    (acc : List Char) : splitPaymentAux s prev acc ≠ [] := by
  induction s generalizing prev acc with
  | nil => simp [splitPaymentAux]
  | cons c rest ih =>
    unfold splitPaymentAux
    split
    · simp
    · exact ih _ _

lemma splitPaymentAux_single (s : List Char) (prev : Option Char)
    (acc p : List Char) (h : splitPaymentAux s prev acc = [p]) :
    p = acc.reverse ++ s := by
  induction s generalizing prev acc with
  | nil =>
    simp [splitPaymentAux] at h
    simp [h]
  | cons c rest ih =>
    unfold splitPaymentAux at h
    split at h
    · rcases List.cons_eq_cons.mp h with ⟨-, htail⟩
      exact absurd htail (splitPaymentAux_ne_nil rest (some c) [])
    · have := ih (some c) (c :: acc) h
      simpa using this

lemma splitPaymentAux_multi_semi (s : List Char) (prev : Option Char)
    (acc : List Char) (h : 2 ≤ (splitPaymentAux s prev acc).length) :
    ';' ∈ s := by
  induction s generalizing prev acc with
  | nil => simp [splitPaymentAux] at h
  | cons c rest ih =>
    unfold splitPaymentAux at h
    split at h
    · rename_i hsep
      have hc : c = ';' := by
        have := (Bool.and_eq_true _ _).mp hsep
        exact (beq_iff_eq.mp this.1)
      simp [hc]
    · exact List.mem_cons_of_mem c (ih _ _ h)

lemma splitPaymentAux_two (s : List Char) (prev : Option Char)
    (acc p0 : List Char) (rest : List (List Char))
    (h : splitPaymentAux s prev acc = p0 :: rest) (hne : rest ≠ []) :
    ∃ u v, s = u ++ ';' :: v ∧ p0 = acc.reverse ++ u := by
  induction s generalizing prev acc p0 rest with
  | nil =>
    simp [splitPaymentAux] at h
    exact absurd h.2 hne
  | cons c tail ih =>
    unfold splitPaymentAux at h
    split at h
    · rename_i hsep
      have hc : c = ';' := by
        have := (Bool.and_eq_true _ _).mp hsep
        exact (beq_iff_eq.mp this.1)
      rcases List.cons_eq_cons.mp h with ⟨hp0, -⟩
      exact ⟨[], tail, by simp [hc], by simp [hp0]⟩
    · obtain ⟨u, v, hs, hp⟩ := ih (some c) (c :: acc) p0 rest h hne
      refine ⟨c :: u, v, by simp [hs], ?_⟩
      simpa using hp

lemma b64Val_semi : b64Val ';' = none := by decide

lemma b64DecodeGroups_semi (l : List Char) (h : ';' ∈ l) :
    b64DecodeGroups l = none := by
  induction l using b64DecodeGroups.induct with
  | case1 => simp at h
  | case2 a b d rest va vb hvb hva hcond =>
    exfalso
    obtain ⟨hd, hrest⟩ := hcond
    subst hd hrest
    simp only [List.mem_cons, List.not_mem_nil, or_false] at h
    rcases h with h | h | h | h
    · rw [← h, b64Val_semi] at hva; cases hva
    · rw [← h, b64Val_semi] at hvb; cases hvb
    · exact absurd h (by decide)
    · exact absurd h (by decide)
  | case3 a b d rest va vb hvb hva hcond =>
    simp [b64DecodeGroups, hva, hvb, hcond]
  | case4 a b c va vb hvb hva hc vc hvc =>
    exfalso
    simp only [List.mem_cons, List.not_mem_nil, or_false] at h
    rcases h with h | h | h | h
    · rw [← h, b64Val_semi] at hva; cases hva
    · rw [← h, b64Val_semi] at hvb; cases hvb
    · rw [← h, b64Val_semi] at hvc; cases hvc
    · exact absurd h (by decide)
  | case5 a b c rest va vb hvb hva hc vc hvc hrest =>
    simp [b64DecodeGroups, hva, hvb, hc, hvc, hrest]
  | case6 a b c d rest va vb hvb hva hc vc hvc hd vd hvd bs hbs ih =>
    exfalso
    simp only [List.mem_cons] at h
    rcases h with h | h | h | h | h
    · rw [← h, b64Val_semi] at hva; cases hva
    · rw [← h, b64Val_semi] at hvb; cases hvb
    · rw [← h, b64Val_semi] at hvc; cases hvc
    · rw [← h, b64Val_semi] at hvd; cases hvd
    · rw [ih h] at hbs; cases hbs
  | case7 a b c d rest va vb hvb hva hc vc hvc hd vd hvd hnone ih =>
    simp [b64DecodeGroups, hva, hvb, hc, hvc, hd, hvd, hnone]
  | case8 a b c d rest va vb hvb hva hc vc hvc hd hvd =>
    simp [b64DecodeGroups, hva, hvb, hc, hvc, hd, hvd]
  | case9 a b c d rest va vb hvb hva hc hvc =>
    simp [b64DecodeGroups, hva, hvb, hc, hvc]
  | case10 a b c d rest hab =>
    cases hva : b64Val a with
    | none => simp [b64DecodeGroups, hva]
    | some va =>
      cases hvb : b64Val b with
      | none => simp [b64DecodeGroups, hva, hvb]
      | some vb => exact (hab va vb hva hvb).elim
  | case11 t h1 h2 =>
    rcases t with _ | ⟨a, _ | ⟨b, _ | ⟨c, _ | ⟨d, rest⟩⟩⟩⟩
    · exact absurd rfl h1
    · rfl
    · rfl
    · rfl
    · exact absurd rfl (h2 a b c d rest)

lemma goBase64Decode_semi (t : List Char) (h : ';' ∈ t) :
    goBase64Decode t = none := by
  apply b64DecodeGroups_semi
  rw [List.mem_filter]
  exact ⟨h, by decide⟩

lemma splitFirst_two (s : List Char) (acc p0 p1 : List Char)
    (h : splitFirst s acc = [p0, p1]) :
    ∃ u, s = u ++ ';' :: p1 ∧ p0 = acc.reverse ++ u := by
  induction s generalizing acc with
  | nil => simp [splitFirst] at h
  | cons c rest ih =>
    unfold splitFirst at h
    split at h
    · rename_i hc
      rcases List.cons_eq_cons.mp h with ⟨hp0, htl⟩
      rcases List.cons_eq_cons.mp htl with ⟨hp1, -⟩
      exact ⟨[], by simp [hc, hp1], by simp [hp0]⟩
    · obtain ⟨u, hsu, hpu⟩ := ih (c :: acc) h
      refine ⟨c :: u, by simp [hsu], ?_⟩
      simpa using hpu

/-- The code's parse reduces to the canonical `x402;<base64>` form:
escaped-semicolon splitting makes no observable difference because any
extra part necessarily leaves a `;` inside the base64 payload, which the
decoder rejects. -/
theorem parseX402Bytes_eq_canonical (s : List Char) :
    parseX402Bytes s = canonicalParseBytes s := by
  unfold canonicalParseBytes
  split
  · rename_i t
    have hsplit : splitPayment ('x' :: '4' :: '0' :: '2' :: ';' :: t)
        = ['x', '4', '0', '2'] :: splitPaymentAux t (some ';') [] := rfl
    unfold parseX402Bytes
    rw [hsplit]
    rcases htail : splitPaymentAux t (some ';') [] with _ | ⟨p1, rest2⟩
    · exact absurd htail (splitPaymentAux_ne_nil t (some ';') [])
    · rcases rest2 with _ | ⟨p2, rest3⟩
      · have hp1 := splitPaymentAux_single t (some ';') [] p1 htail
        simp at hp1
        subst hp1
        simp
      · have hsemi : ';' ∈ t := by
          apply splitPaymentAux_multi_semi t (some ';') []
          rw [htail]
          simp
        rw [goBase64Decode_semi t hsemi]
  · rename_i hne
    unfold parseX402Bytes
    rcases hs : splitPayment s with _ | ⟨p0, _ | ⟨p1, _ | ⟨p2, r⟩⟩⟩
    · rfl
    · rfl
    · by_cases hp0 : p0 = "x402".toList
      · exfalso
        obtain ⟨u, v, hsuv, hpu⟩ :=
          splitPaymentAux_two s none [] p0 [p1] hs (by simp)
        simp at hpu
        rw [← hpu, hp0] at hsuv
        exact hne v hsuv
      · show (if p0 = "x402".toList then goBase64Decode p1 else none) = none
        rw [if_neg hp0]
    · rfl

/-- The spec's first-semicolon parse reduces to the same canonical form. -/
theorem parseX402BytesSpec_eq_canonical (s : List Char) :
    parseX402BytesSpec s = canonicalParseBytes s := by
  unfold canonicalParseBytes
  split
  · rename_i t
    have hsplit : splitFirst ('x' :: '4' :: '0' :: '2' :: ';' :: t) []
        = [['x', '4', '0', '2'], t] := rfl
    unfold parseX402BytesSpec
    rw [hsplit]
    show (if (['x', '4', '0', '2'] : List Char) = "x402".toList
        then goBase64Decode t else none) = goBase64Decode t
    rw [if_pos (by decide)]
  · rename_i hne
    unfold parseX402BytesSpec
    rcases hs : splitFirst s [] with _ | ⟨p0, _ | ⟨p1, _ | ⟨p2, r⟩⟩⟩
    · rfl
    · rfl
    · by_cases hp0 : p0 = "x402".toList
      · exfalso
        obtain ⟨u, hsu, hpu⟩ := splitFirst_two s [] p0 p1 hs
        simp at hpu
        rw [← hpu, hp0] at hsu
        exact hne p1 hsu
      · show (if p0 = "x402".toList then goBase64Decode p1 else none) = none
        rw [if_neg hp0]
    · rfl

end Wallet
namespace CertCache

lemma threadStep_cached_mono (s : CacheState) (pc : ThreadPC) (x : Nat)
    (h : s.cached = some x) : (threadStep s pc).1.cached = some x := by
  cases pc with
  | start => simp [threadStep, h]
  | missed => simp [threadStep, h]
  | generated c => simp [threadStep, h]
  | done r => simp [threadStep]; exact h

lemma inv_step (s : CacheState) (ths : List ThreadPC) (tid : Nat)
    (pc : ThreadPC) (hget : ths.get? tid = some pc) (hinv : inv (s, ths)) :
    inv ((threadStep s pc).1, ths.set tid (threadStep s pc).2) := by
  intro i r hi
  by_cases hit : i = tid
  · subst hit
    have hlen : i < ths.length := (List.get?_eq_some.mp hget).1
    rw [List.get?_set_eq_of_lt _ (by simpa using hlen)] at hi
    cases pc with
    | start =>
      cases hc : s.cached with
      | none => simp [threadStep, hc] at hi
      | some c =>
        simp [threadStep, hc] at hi ⊢
        simp [hi, hc]
    | missed => simp [threadStep] at hi
    | generated c =>
      cases hc : s.cached with
      | none =>
        simp [threadStep, hc] at hi ⊢
        simp [hi]
      | some existing =>
        simp [threadStep, hc] at hi ⊢
        simp [hi, hc]
    | done r0 =>
      simp [threadStep] at hi ⊢
      have := hinv i r0 hget
      rw [hi] at this
      exact threadStep_cached_mono s (.done r0) r this
  · rw [List.get?_set_ne _ _ (Ne.symm hit)] at hi
    have := hinv i r hi
    exact threadStep_cached_mono s pc r this

lemma inv_run (sched : List Nat) (cfg : CacheState × List ThreadPC)
    (hinv : inv cfg) : inv (runSchedule sched cfg) := by
  induction sched generalizing cfg with
  | nil => simpa [runSchedule] using hinv
  | cons tid rest ih =>
    obtain ⟨s, ths⟩ := cfg
    rw [runSchedule]
    cases hget : ths.get? tid with
    | none => exact ih (s, ths) hinv
    | some pc => exact ih _ (inv_step s ths tid pc hget hinv)

end CertCache
/-! ## Claim C1 -/

/-- C1: when the atomic deduction fails (balance < price) and the
account has no billing customer, the API-key payment path returns 402
with error "Insufficient credits", the downstream handler is not
invoked, no usage-log row is written and the balance is unchanged. -/
theorem claim_C1 (account : Middleware.Account) (price : Int)
    (logs : List Middleware.UsageLog)
    (hins : account.balance < price)
    (hnocust : account.stripeCustomerID = none
      ∨ account.stripeCustomerID = some "") :
    Middleware.handleAPIKeyPayment account price logs
      = (.response 402 Middleware.insufficientCreditsBody, account.balance, logs)
    ∧ Middleware.insufficientCreditsBody.field "error"
        = some (.str "Insufficient credits") := by
  have hd : Middleware.deductBalance account.balance price
      = (false, account.balance) := by
    unfold Middleware.deductBalance
    rw [if_neg (by omega)]
  constructor
  · unfold Middleware.handleAPIKeyPayment
    rw [hd]
    rcases hnocust with h | h <;> simp [h]
  · rfl

/-- Witness for C1: balance 500 < price 1000 and no Stripe customer. -/
theorem claim_C1_witness :
    ((⟨7, 500, none⟩ : Middleware.Account).balance < 1000
      ∧ (⟨7, 500, none⟩ : Middleware.Account).stripeCustomerID = none)
    ∧ Middleware.handleAPIKeyPayment ⟨7, 500, none⟩ 1000 []
        = (.response 402 Middleware.insufficientCreditsBody, 500, [])
    ∧ Middleware.insufficientCreditsBody.field "error"
        = some (.str "Insufficient credits") :=
  ⟨⟨by decide, rfl⟩,
    claim_C1 ⟨7, 500, none⟩ 1000 [] (by decide) (Or.inl rfl)⟩

/-! ## Claim C2 -/

/-- C2 counterexample: a request with neither an X-Payment header nor an
Authorization header gets the path-3 402, whose body has only `error`
and `message` — no `accepts` array; the standalone middleware's 402 body
carries a single `payment_requirements` object and no `accepts` either. -/
theorem claim_C2_counterexample :
    Middleware.routeStep [] [] = .response 402 Middleware.paymentRequiredBody
    ∧ Middleware.paymentRequiredBody.field "accepts" = none
    ∧ (Middleware.requirePaymentBody "base" "0xabc"
        "https://x402.org/facilitator" "1000").field "accepts" = none := by
  refine ⟨rfl, rfl, rfl⟩

/-- C2 amended: for every request to a `PaymentRouter.Route`-gated route
carrying no X-Payment header and no Authorization header selecting the
API-key path, the response is 402 with `error` "Payment required" and a
`message`, and the body contains no `accepts` array (the standalone
x402 middleware's 402 likewise exposes one `payment_requirements`
object, never an `accepts` array). -/
theorem claim_C2_amended (authHeader : List Char)
    (hauth : Middleware.isApiKeyAuth authHeader = false)
    (network wallet facURL amountStr : String) :
    Middleware.routeStep [] authHeader
      = .response 402 Middleware.paymentRequiredBody
    ∧ Middleware.paymentRequiredBody.field "error"
        = some (.str "Payment required")
    ∧ Middleware.paymentRequiredBody.field "accepts" = none
    ∧ (Middleware.requirePaymentBody network wallet facURL amountStr).field
        "accepts" = none := by
  refine ⟨?_, rfl, rfl, rfl⟩
  unfold Middleware.routeStep
  simp [hauth]

/-- Witness for the amended C2 at an empty Authorization header. -/
theorem claim_C2_amended_witness :
    Middleware.isApiKeyAuth [] = false
    ∧ (Middleware.routeStep [] []
        = .response 402 Middleware.paymentRequiredBody
      ∧ Middleware.paymentRequiredBody.field "error"
          = some (.str "Payment required")
      ∧ Middleware.paymentRequiredBody.field "accepts" = none
      ∧ (Middleware.requirePaymentBody "base" "0xabc" "https://x402.org/facilitator"
          "1000").field "accepts" = none) :=
  ⟨rfl, claim_C2_amended [] rfl "base" "0xabc" "https://x402.org/facilitator" "1000"⟩
/-! ## Claim C3 -/

/-- C3: when the request-body scan's scanner call fails (transport error)
and `FailOpen = false`, the client receives the substituted 403 block
response (decision header BLOCK) and the request is not forwarded
upstream. -/
theorem claim_C3 (cfg : Proxy.ScanCfg) (req : Proxy.HTTPRequest)
    (outcome : Option Proxy.ScanResult)
    (hcall : Proxy.requestScannerCalled cfg req = true)
    (hfail : outcome = none)
    (hclosed : cfg.failOpen = false) :
    Proxy.processRequestPhase cfg req outcome
      = .blocked (Proxy.sendBlockResponse Proxy.scanFailedResult req.url)
    ∧ (Proxy.sendBlockResponse Proxy.scanFailedResult req.url).status = 403
    ∧ (Proxy.sendBlockResponse Proxy.scanFailedResult req.url).headers.lookup
        "X-Stronghold-Decision" = some "BLOCK"
    ∧ Proxy.processRequestPhase cfg req outcome ≠ .forwarded := by
  have hstep : Proxy.processRequestPhase cfg req outcome
      = .blocked (Proxy.sendBlockResponse Proxy.scanFailedResult req.url) := by
    unfold Proxy.processRequestPhase
    rw [hcall, hfail]
    unfold Proxy.scanContent
    rw [hclosed]
    rfl
  exact ⟨hstep, rfl, rfl, by rw [hstep]; intro h; cases h⟩

/-- Witness for C3: scanning enabled, fail-closed, a 10-byte POST body,
scanner unreachable. -/
theorem claim_C3_witness :
    (Proxy.requestScannerCalled ⟨true, false⟩
        ⟨"https://u.example/a", true, 10, 10, "text/html".toList⟩ = true
      ∧ (none : Option Proxy.ScanResult) = none
      ∧ (⟨true, false⟩ : Proxy.ScanCfg).failOpen = false)
    ∧ (Proxy.processRequestPhase ⟨true, false⟩
          ⟨"https://u.example/a", true, 10, 10, "text/html".toList⟩ none
        = .blocked (Proxy.sendBlockResponse Proxy.scanFailedResult
            "https://u.example/a")
      ∧ (Proxy.sendBlockResponse Proxy.scanFailedResult
          "https://u.example/a").status = 403
      ∧ (Proxy.sendBlockResponse Proxy.scanFailedResult
          "https://u.example/a").headers.lookup "X-Stronghold-Decision"
          = some "BLOCK"
      ∧ Proxy.processRequestPhase ⟨true, false⟩
          ⟨"https://u.example/a", true, 10, 10, "text/html".toList⟩ none
          ≠ .forwarded) :=
  ⟨⟨by decide, rfl, rfl⟩,
    claim_C3 ⟨true, false⟩ ⟨"https://u.example/a", true, 10, 10, "text/html".toList⟩
      none (by decide) rfl rfl⟩

/-! ## Claim C4 -/

/-- C4 counterexample: a proxied request with binary Content-Type
`image/png` and a 10-byte body passes the request scan gate — the scanner
IS called, because `proxyHTTPS` never consults the request's
Content-Type. -/
theorem claim_C4_counterexample :
    Proxy.isBinaryContentType "image/png".toList = true
    ∧ Proxy.requestScannerCalled ⟨true, true⟩
        ⟨"https://u.example/p", true, 10, 10, "image/png".toList⟩ = true := by
  constructor <;> decide

/-- C4 amended: for proxied HTTP *responses* a binary Content-Type skips
the scanner regardless of body size; the request path applies no
content-type test at all (see the counterexample). -/
theorem claim_C4_amended (cfg : Proxy.ScanCfg) (respLen : Nat)
    (ct : List Char) (hbin : Proxy.isBinaryContentType ct = true) :
    Proxy.responseScannerCalled cfg respLen ct = false := by
  unfold Proxy.responseScannerCalled
  rw [hbin]
  simp

/-- Witness for the amended C4: a 10-byte `image/png` response is not
scanned. -/
theorem claim_C4_amended_witness :
    Proxy.isBinaryContentType "image/png".toList = true
    ∧ Proxy.responseScannerCalled ⟨true, true⟩ 10 "image/png".toList = false :=
  ⟨by decide, claim_C4_amended ⟨true, true⟩ 10 "image/png".toList (by decide)⟩

/-! ## Claim C5 -/

/-- C5 counterexample: at a concrete BLOCK result, the MITM block
response's body has no `request_id` and no `recommended_action` field,
and its headers carry no `X-Stronghold-Action`. -/
theorem claim_C5_counterexample :
    (Proxy.sendBlockResponse ⟨"BLOCK", "bad"⟩
        "https://u.example/x").bodyFields.lookup "request_id" = none
    ∧ (Proxy.sendBlockResponse ⟨"BLOCK", "bad"⟩
        "https://u.example/x").bodyFields.lookup "recommended_action" = none
    ∧ (Proxy.sendBlockResponse ⟨"BLOCK", "bad"⟩
        "https://u.example/x").headers.lookup "X-Stronghold-Action" = none := by
  refine ⟨by decide, by decide, by decide⟩

/-- C5 amended: on a BLOCK decision the MITM handler substitutes a 403
whose JSON body carries `error`, `reason` and `url` (not `request_id` or
`recommended_action`), with headers `X-Stronghold-Decision: BLOCK` and
`X-Stronghold-Reason` (and no `X-Stronghold-Action`). -/
theorem claim_C5_amended (result : Proxy.ScanResult) (url : String)
    (hdec : result.decision = "BLOCK") :
    (Proxy.sendBlockResponse result url).status = 403
    ∧ (Proxy.sendBlockResponse result url).bodyFields.lookup "error"
        = some "Content blocked by Stronghold security scan"
    ∧ (Proxy.sendBlockResponse result url).bodyFields.lookup "reason"
        = some result.reason
    ∧ (Proxy.sendBlockResponse result url).bodyFields.lookup "url" = some url
    ∧ (Proxy.sendBlockResponse result url).headers.lookup
        "X-Stronghold-Decision" = some "BLOCK"
    ∧ (Proxy.sendBlockResponse result url).headers.lookup
        "X-Stronghold-Reason" = some result.reason
    ∧ (Proxy.sendBlockResponse result url).bodyFields.lookup "request_id" = none
    ∧ (Proxy.sendBlockResponse result url).bodyFields.lookup
        "recommended_action" = none
    ∧ (Proxy.sendBlockResponse result url).headers.lookup
        "X-Stronghold-Action" = none := by
  refine ⟨rfl, rfl, rfl, rfl, ?_, rfl, rfl, rfl, rfl⟩
  simp [Proxy.sendBlockResponse, hdec, List.lookup]

/-- Witness for the amended C5 at a concrete BLOCK result. -/
theorem claim_C5_amended_witness :
    (⟨"BLOCK", "bad"⟩ : Proxy.ScanResult).decision = "BLOCK"
    ∧ ((Proxy.sendBlockResponse ⟨"BLOCK", "bad"⟩ "https://u.example/y").status = 403
      ∧ (Proxy.sendBlockResponse ⟨"BLOCK", "bad"⟩
          "https://u.example/y").bodyFields.lookup "error"
          = some "Content blocked by Stronghold security scan"
      ∧ (Proxy.sendBlockResponse ⟨"BLOCK", "bad"⟩
          "https://u.example/y").bodyFields.lookup "reason" = some "bad"
      ∧ (Proxy.sendBlockResponse ⟨"BLOCK", "bad"⟩
          "https://u.example/y").bodyFields.lookup "url"
          = some "https://u.example/y"
      ∧ (Proxy.sendBlockResponse ⟨"BLOCK", "bad"⟩
          "https://u.example/y").headers.lookup "X-Stronghold-Decision"
          = some "BLOCK"
      ∧ (Proxy.sendBlockResponse ⟨"BLOCK", "bad"⟩
          "https://u.example/y").headers.lookup "X-Stronghold-Reason"
          = some "bad"
      ∧ (Proxy.sendBlockResponse ⟨"BLOCK", "bad"⟩
          "https://u.example/y").bodyFields.lookup "request_id" = none
      ∧ (Proxy.sendBlockResponse ⟨"BLOCK", "bad"⟩
          "https://u.example/y").bodyFields.lookup "recommended_action" = none
      ∧ (Proxy.sendBlockResponse ⟨"BLOCK", "bad"⟩
          "https://u.example/y").headers.lookup "X-Stronghold-Action" = none) :=
  ⟨rfl, claim_C5_amended ⟨"BLOCK", "bad"⟩ "https://u.example/y" rfl⟩
/-! ## Claim C6 -/

/-- C6: the retry backoff for a payment with `settlement_attempts = n`
equals `min(5s * 2^n, 5min)`; in particular it lies inside the claimed
jitter envelope `[base, base + base/2]` (the code applies zero jitter).
A payment whose `executed_at` is closer to `now` than its backoff is
skipped by the retry pass. -/
theorem claim_C6 (n : Nat) (now : Int)
    (batch : List Settlement.PendingPayment) (p : Settlement.PendingPayment)
    (hmem : p ∈ batch)
    (hrecent : now - p.executedAt <
      Settlement.calculateBackoff p.settlementAttempts) :
    (Settlement.calculateBackoff n
        = min (5 * Settlement.second * 2 ^ n) (5 * Settlement.minute)
      ∧ min (5 * Settlement.second * 2 ^ n) (5 * Settlement.minute)
          ≤ Settlement.calculateBackoff n
      ∧ Settlement.calculateBackoff n
          ≤ min (5 * Settlement.second * 2 ^ n) (5 * Settlement.minute)
            + min (5 * Settlement.second * 2 ^ n) (5 * Settlement.minute) / 2)
    ∧ p ∉ Settlement.retryAttempted now batch := by
  have heq := Settlement.calculateBackoff_eq n
  have hbase : (0 : Int) ≤ min (5 * Settlement.second * 2 ^ n) (5 * Settlement.minute) :=
    le_min (by simp only [Settlement.second]; positivity)
      (by norm_num [Settlement.minute, Settlement.second])
  refine ⟨⟨heq, le_of_eq heq.symm, ?_⟩, ?_⟩
  · rw [heq]
    have : (0 : Int) ≤ min (5 * Settlement.second * 2 ^ n) (5 * Settlement.minute) / 2 :=
      Int.ediv_nonneg hbase (by norm_num)
    linarith
  · intro hin
    have := List.of_mem_filter hin
    rw [Settlement.retryDue] at this
    simp only [decide_eq_true_eq] at this
    omega

/-- Witness for C6: attempt count 2; a payment executed at time 0 with 0
prior attempts is skipped at now = 3ns since 3 < 5s. -/
theorem claim_C6_witness :
    ((⟨1, 0, 0⟩ : Settlement.PendingPayment) ∈ [(⟨1, 0, 0⟩ : Settlement.PendingPayment)]
      ∧ (3 : Int) - (0 : Int) < Settlement.calculateBackoff 0)
    ∧ ((Settlement.calculateBackoff 2
        = min (5 * Settlement.second * 2 ^ 2) (5 * Settlement.minute)
      ∧ min (5 * Settlement.second * 2 ^ 2) (5 * Settlement.minute)
          ≤ Settlement.calculateBackoff 2
      ∧ Settlement.calculateBackoff 2
          ≤ min (5 * Settlement.second * 2 ^ 2) (5 * Settlement.minute)
            + min (5 * Settlement.second * 2 ^ 2) (5 * Settlement.minute) / 2)
    ∧ (⟨1, 0, 0⟩ : Settlement.PendingPayment)
        ∉ Settlement.retryAttempted 3 [(⟨1, 0, 0⟩ : Settlement.PendingPayment)]) :=
  ⟨⟨by decide, by decide⟩,
    claim_C6 2 3 [⟨1, 0, 0⟩] ⟨1, 0, 0⟩ (by decide) (by decide)⟩
/-! ## Claim C7 -/

/-- C7: `ParseX402Payment` behaves exactly as "split on the first `;`,
reject a scheme other than `x402`, base64-decode, JSON-parse": it agrees
with the first-split reading on every input (the JSON stage abstracted
as an arbitrary decoder), a successful parse forces the input to be
`x402;<valid base64 of JSON>`, and every input not of the form
`x402;...` yields an error and no payload. -/
theorem claim_C7 (jsonDec : List Nat → Option Wallet.X402Payload)
    (s : List Char) :
    Wallet.parseX402Payment jsonDec s = Wallet.parseX402PaymentSpec jsonDec s
    ∧ (∀ p, Wallet.parseX402Payment jsonDec s = some p →
        ∃ t bs, s = 'x' :: '4' :: '0' :: '2' :: ';' :: t
          ∧ Wallet.goBase64Decode t = some bs ∧ jsonDec bs = some p)
    ∧ ((∀ t, s ≠ 'x' :: '4' :: '0' :: '2' :: ';' :: t) →
        Wallet.parseX402Payment jsonDec s = none) := by
  refine ⟨?_, ?_, ?_⟩
  · unfold Wallet.parseX402Payment Wallet.parseX402PaymentSpec
    rw [Wallet.parseX402Bytes_eq_canonical, Wallet.parseX402BytesSpec_eq_canonical]
  · intro p hp
    unfold Wallet.parseX402Payment at hp
    rw [Wallet.parseX402Bytes_eq_canonical] at hp
    rcases hbs : Wallet.canonicalParseBytes s with _ | bs
    · rw [hbs] at hp
      cases hp
    · rw [hbs] at hp
      unfold Wallet.canonicalParseBytes at hbs
      split at hbs
      · rename_i t
        exact ⟨t, bs, rfl, hbs, hp⟩
      · cases hbs
  · intro hform
    unfold Wallet.parseX402Payment
    rw [Wallet.parseX402Bytes_eq_canonical]
    have hc : Wallet.canonicalParseBytes s = none := by
      unfold Wallet.canonicalParseBytes
      split
      · rename_i t
        exact absurd rfl (hform t)
      · rfl
    rw [hc]
    rfl

/-- Witness for C7: the header `x402;e30=` (base64 of `{}`) parses, and
`nope` is rejected. -/
theorem claim_C7_witness :
    (Wallet.parseX402Payment Wallet.jsonDecW "x402;e30=".toList
        = some ⟨"base", "x402", "", "", "", "", 0, "", ""⟩
      ∧ (∀ t, "nope".toList ≠ 'x' :: '4' :: '0' :: '2' :: ';' :: t))
    ∧ ((∃ t bs, "x402;e30=".toList = 'x' :: '4' :: '0' :: '2' :: ';' :: t
        ∧ Wallet.goBase64Decode t = some bs
        ∧ Wallet.jsonDecW bs = some ⟨"base", "x402", "", "", "", "", 0, "", ""⟩)
      ∧ Wallet.parseX402Payment Wallet.jsonDecW "nope".toList = none) := by
  have hp : Wallet.parseX402Payment Wallet.jsonDecW "x402;e30=".toList
      = some ⟨"base", "x402", "", "", "", "", 0, "", ""⟩ := by decide
  have hnope : ∀ t, "nope".toList ≠ 'x' :: '4' :: '0' :: '2' :: ';' :: t := by
    intro t h
    simp at h
  exact ⟨⟨hp, hnope⟩,
    ⟨(claim_C7 Wallet.jsonDecW "x402;e30=".toList).2.1 _ hp,
      (claim_C7 Wallet.jsonDecW "nope".toList).2.2 hnope⟩⟩
/-! ## Claim C8 -/

/-- C8: for every supported chain c (base, base-sepolia, solana,
solana-devnet) and every integer m ≥ 0 (in the `int64` domain of
`MicroUSDC`), converting to on-chain atomic units and back is the
identity: `FromBigInt(ToBigInt(m, c), c) = m`. -/
theorem claim_C8 (chain : String)
    (hc : chain ∈ ["base", "base-sepolia", "solana", "solana-devnet"])
    (m : Int) (h0 : 0 ≤ m) (h1 : m < 2 ^ 63) :
    Usdc.fromBigInt (Usdc.toBigInt m chain) chain = m := by
  have hd := Usdc.chainDecimals_supported chain hc
  unfold Usdc.toBigInt Usdc.fromBigInt
  rw [hd]
  norm_num
  exact Usdc.wrapInt64_eq_self m (by linarith) h1

/-- Witness for C8 at chain `base` and m = 1000000 (one USDC). -/
theorem claim_C8_witness :
    ("base" ∈ ["base", "base-sepolia", "solana", "solana-devnet"]
      ∧ (0 : Int) ≤ 1000000 ∧ (1000000 : Int) < 2 ^ 63)
    ∧ Usdc.fromBigInt (Usdc.toBigInt 1000000 "base") "base" = 1000000 :=
  ⟨⟨by decide, by norm_num, by norm_num⟩,
    claim_C8 "base" (by decide) 1000000 (by norm_num) (by norm_num)⟩
/-! ## Claim C9 -/

/-- C9 counterexample: with two goroutines interleaved miss-miss before
either inserts, `GenerateCert` runs twice for the one host within a
single eviction cycle — generation is not single-flight (it happens
outside the lock; only the insert is double-checked). Both callers still
return certificate 0. -/
theorem claim_C9_counterexample :
    CertCache.runSchedule [0, 1, 0, 1, 0, 1] (CertCache.initConfig 2)
      = ({ cached := some 0, genCount := 2 }, [.done 0, .done 0])
    ∧ (CertCache.runSchedule [0, 1, 0, 1, 0, 1]
        (CertCache.initConfig 2)).1.genCount ≠ 1 := by
  refine ⟨by decide, by decide⟩

/-- C9 amended: under every interleaving of any number of concurrent
`GetCert` calls for one host (within one eviction cycle), all calls that
complete return the same certificate value — the one cached — though the
generator may run more than once. -/
theorem claim_C9_amended (sched : List Nat) (n : Nat) (i j r1 r2 : Nat)
    (hi : (CertCache.runSchedule sched (CertCache.initConfig n)).2.get? i
      = some (.done r1))
    (hj : (CertCache.runSchedule sched (CertCache.initConfig n)).2.get? j
      = some (.done r2)) :
    r1 = r2
    ∧ (CertCache.runSchedule sched (CertCache.initConfig n)).1.cached
        = some r1 := by
  have hinv0 : CertCache.inv (CertCache.initConfig n) := by
    intro k r hk
    exfalso
    have hmem := List.get?_mem hk
    have := List.eq_of_mem_replicate hmem
    cases this
  have hinv := CertCache.inv_run sched _ hinv0
  have h1 := hinv i r1 hi
  have h2 := hinv j r2 hj
  refine ⟨?_, h1⟩
  rw [h1] at h2
  exact Option.some_injective _ h2

/-- Witness for the amended C9: schedule where goroutine 0 mints and
inserts, then goroutine 1 hits the cache; both return certificate 0. -/
theorem claim_C9_amended_witness :
    ((CertCache.runSchedule [0, 0, 0, 1] (CertCache.initConfig 2)).2.get? 0
        = some (.done 0)
      ∧ (CertCache.runSchedule [0, 0, 0, 1] (CertCache.initConfig 2)).2.get? 1
        = some (.done 0))
    ∧ ((0 : Nat) = 0
      ∧ (CertCache.runSchedule [0, 0, 0, 1] (CertCache.initConfig 2)).1.cached
        = some 0) :=
  ⟨⟨by decide, by decide⟩,
    claim_C9_amended [0, 0, 0, 1] 2 0 1 0 0 (by decide) (by decide)⟩
/-! ## Claim C10 -/

/-- C10: for any payload whose network is neither "base" nor
"base-sepolia", `getChainID` yields 8453, so `VerifyPaymentSignature`
checks the signature against the Base-mainnet EIP-712 domain — the same
typed data it would build for network "base" — rather than rejecting the
unsupported network. -/
theorem claim_C10 (p : Wallet.X402Payload)
    (h1 : p.network ≠ "base") (h2 : p.network ≠ "base-sepolia") :
    Wallet.getChainID p.network = 8453
    ∧ (Wallet.verifyTypedData p).domain.chainID = 8453
    ∧ Wallet.verifyTypedData p
        = Wallet.verifyTypedData { p with network := "base" } := by
  have hid : Wallet.getChainID p.network = 8453 := by
    unfold Wallet.getChainID
    split
    · rfl
    · rename_i heq; exact absurd heq h2
    · rfl
  refine ⟨hid, ?_, ?_⟩
  · simp [Wallet.verifyTypedData, Wallet.buildPaymentTypedData, hid]
  · simp [Wallet.verifyTypedData, Wallet.buildPaymentTypedData, hid]
    rfl

/-- Witness for C10 at a Solana-network payload. -/
theorem claim_C10_witness :
    ((⟨"solana", "x402", "p", "r", "t", "1000", 5, "n", "s"⟩ :
        Wallet.X402Payload).network ≠ "base"
      ∧ (⟨"solana", "x402", "p", "r", "t", "1000", 5, "n", "s"⟩ :
        Wallet.X402Payload).network ≠ "base-sepolia")
    ∧ (Wallet.getChainID "solana" = 8453
      ∧ (Wallet.verifyTypedData
          ⟨"solana", "x402", "p", "r", "t", "1000", 5, "n", "s"⟩).domain.chainID
          = 8453
      ∧ Wallet.verifyTypedData ⟨"solana", "x402", "p", "r", "t", "1000", 5, "n", "s"⟩
          = Wallet.verifyTypedData ⟨"base", "x402", "p", "r", "t", "1000", 5, "n", "s"⟩) :=
  ⟨⟨by decide, by decide⟩,
    claim_C10 ⟨"solana", "x402", "p", "r", "t", "1000", 5, "n", "s"⟩
      (by decide) (by decide)⟩
end Stronghold
